import Mathlib

/-!
Verification development for the ledger core of the Personal Expense Tracker
(`tracker.py`, class `ExpenseLogic`).  The Python code is shallowly embedded:
amounts (Python floats) are modelled by `PyFloat` — an exact rational, NaN,
or a signed infinity, so that the full acceptance set of `float(...)`
(including `nan`, `inf`, exponents and digit-group underscores) is captured
and only the binary rounding of finite doubles is abstracted to exact
arithmetic; Python dicts (which preserve insertion order) are ordered
association lists, the persisted JSON document a record of optional fields,
and the uncaught `KeyError` of `add_category` an `Except`.  All definitions
are executable and structurally recursive so that concrete runs evaluate by
`decide` or `rfl`.
-/

namespace Tracker

/-- Characters removed by Python `str.strip()` (the ASCII whitespace range). -/
def isPySpace (c : Char) : Bool :=
  c = ' ' || c = '\t' || c = '\n' || c = '\r' || c = '\x0b' || c = '\x0c'

/-- Strip leading and trailing whitespace from a character list. -/
def stripChars (cs : List Char) : List Char :=
  ((cs.dropWhile isPySpace).reverse.dropWhile isPySpace).reverse

/-- Model of Python `str.strip()`. -/
def pyStrip (s : String) : String := ⟨stripChars s.toList⟩

/-- Helper for `pyTitle`: the boolean records whether the previous character
was alphabetic (Python title-cases the first letter of each alphabetic run
and lowercases the rest). -/
def titleGo : Bool → List Char → List Char
  | _, [] => []
  | prev, c :: cs =>
    if c.isAlpha then
      (if prev then c.toLower else c.toUpper) :: titleGo true cs
    else
      c :: titleGo false cs

/-- Model of Python `str.title()` on ASCII text. -/
def pyTitle (s : String) : String := ⟨titleGo false s.toList⟩

/-- Model of Python `str.startswith`: the second string is a character-wise
initial segment of the first. -/
def pyStartsWith (s pre : String) : Bool := List.isPrefixOf pre.toList s.toList

/-- Lexicographic comparison of character lists by code point, the order
Python uses when sorting the `date` strings of transactions. -/
def lexLe : List Char → List Char → Bool
  | [], _ => true
  | _ :: _, [] => false
  | a :: as, b :: bs =>
    if a.toNat < b.toNat then true
    else if b.toNat < a.toNat then false
    else lexLe as bs

/-- Decimal value of a digit string, as read by Python number parsing. -/
def decNat (cs : List Char) : Nat :=
  cs.foldl (fun n c => 10 * n + (c.toNat - 48)) 0

/-- Decimal digits of a natural number; the first argument is fuel, always
called with fuel greater than the number so the base case is never hit. -/
def natDigitsAux : Nat → Nat → List Char → List Char
  | 0, _, acc => acc
  | fuel + 1, n, acc =>
    if n < 10 then Nat.digitChar n :: acc
    else natDigitsAux fuel (n / 10) (Nat.digitChar (n % 10) :: acc)

/-- Decimal digit characters of a natural number (most significant first). -/
def natDigits (n : Nat) : List Char := natDigitsAux (n + 1) n []

/-- Decimal rendering of a natural number. -/
def natRepr (n : Nat) : String := ⟨natDigits n⟩

/-- Model of the `%02d` rendering used by `strftime` for months and days
(and by `%.2f` for the cent part); correct for arguments below 100. -/
def pad2 (n : Nat) : String :=
  ⟨[Nat.digitChar (n / 10 % 10), Nat.digitChar (n % 10)]⟩

/-- The value space of Python `float(...)`: a finite value (held exactly as
a rational — the binary rounding of doubles is the disclosed abstraction),
NaN, or a signed infinity. -/
inductive PyFloat where
  | num (q : Rat)
  | nan
  | inf (neg : Bool)
deriving DecidableEq, Repr

/-- Python unary minus on floats (`-nan` is still NaN). -/
def PyFloat.neg : PyFloat → PyFloat
  | .num q => .num (-q)
  | .nan => .nan
  | .inf b => .inf (!b)

/-- Python `abs` on floats (`abs(nan)` is NaN, `abs(-inf)` is `inf`). -/
def PyFloat.abs : PyFloat → PyFloat
  | .num q => .num |q|
  | .nan => .nan
  | .inf _ => .inf false

/-- IEEE comparison `v < 0` as Python evaluates it: false for NaN. -/
def PyFloat.ltZero : PyFloat → Bool
  | .num q => decide (q < 0)
  | .nan => false
  | .inf b => b

/-- IEEE comparison `v >= 0` as Python evaluates it: false for NaN. -/
def PyFloat.nonNeg : PyFloat → Bool
  | .num q => decide (0 ≤ q)
  | .nan => false
  | .inf b => !b

/-- IEEE addition on the `PyFloat` value space (exact on finite values):
NaN propagates and opposite infinities cancel to NaN. -/
def PyFloat.add : PyFloat → PyFloat → PyFloat
  | .nan, _ => .nan
  | .num _, .nan => .nan
  | .inf _, .nan => .nan
  | .num a, .num b => .num (a + b)
  | .num _, .inf b => .inf b
  | .inf b, .num _ => .inf b
  | .inf b1, .inf b2 => if b1 = b2 then .inf b1 else .nan

instance : Zero PyFloat := ⟨PyFloat.num 0⟩

instance : Add PyFloat := ⟨PyFloat.add⟩

/-- IEEE subtraction, `x - y = x + (-y)`. -/
def PyFloat.sub (a b : PyFloat) : PyFloat := a.add b.neg

instance : Sub PyFloat := ⟨PyFloat.sub⟩

/-- A digit group as scanned by Python number parsing: digits with single
underscores allowed between digits.  Returns the collected digits and the
unconsumed remainder (an underscore not followed by a digit terminates the
group and is left in the remainder). -/
def digitPartGo : List Char → List Char → List Char × List Char
  | [], acc => (acc.reverse, [])
  | [c], acc =>
    if c.isDigit then ((c :: acc).reverse, []) else (acc.reverse, [c])
  | c :: d :: rest, acc =>
    if c.isDigit then digitPartGo (d :: rest) (c :: acc)
    else if c = '_' && d.isDigit then digitPartGo rest (d :: acc)
    else (acc.reverse, c :: d :: rest)

/-- A digit group must start with a digit; otherwise nothing is consumed. -/
def digitPart (cs : List Char) : List Char × List Char :=
  match cs with
  | c :: _ => if c.isDigit then digitPartGo cs [] else ([], cs)
  | [] => ([], [])

/-- Exact value of a decimal literal with integer digits `ip`, fraction
digits `fp` and decimal exponent `e`. -/
def pyDecValue (ip fp : List Char) (e : Int) : Rat :=
  let m : Int := (decNat (ip ++ fp) : Int)
  let p : Int := e - (fp.length : Int)
  if 0 ≤ p then Rat.divInt (m * 10 ^ p.toNat) 1
  else Rat.divInt m ((10 : Int) ^ (-p).toNat)

/-- Exponent magnitude: a digit group that must be nonempty and consume the
whole remainder. -/
def parseExpMag (ip fp : List Char) (neg : Bool) (r : List Char) : Option Rat :=
  match digitPart r with
  | (ep, r2) =>
    if ep.isEmpty || !r2.isEmpty then none
    else some (pyDecValue ip fp (if neg then -(decNat ep : Int) else (decNat ep : Int)))

/-- Optional sign of an exponent. -/
def parseExpSign (ip fp : List Char) (r : List Char) : Option Rat :=
  match r with
  | '+' :: r2 => parseExpMag ip fp false r2
  | '-' :: r2 => parseExpMag ip fp true r2
  | _ => parseExpMag ip fp false r

/-- After the mantissa: end of input, or an `e`/`E` exponent part. -/
def parseExpPart (ip fp : List Char) (r : List Char) : Option Rat :=
  match r with
  | [] => some (pyDecValue ip fp 0)
  | 'e' :: r2 => parseExpSign ip fp r2
  | 'E' :: r2 => parseExpSign ip fp r2
  | _ => none

/-- An unsigned decimal float literal as accepted by Python `float(...)`:
`digits [. digits] [exponent]`, `. digits [exponent]` or `digits .
[exponent]`, with underscores between digits. -/
def parseDecNumber (cs : List Char) : Option Rat :=
  match digitPart cs with
  | (ip, r1) =>
    match r1 with
    | '.' :: r2 =>
      match digitPart r2 with
      | (fp, r3) =>
        if ip.isEmpty && fp.isEmpty then none
        else parseExpPart ip fp r3
    | _ =>
      if ip.isEmpty then none
      else parseExpPart ip [] r1

/-- Case-insensitive full match against a lowercase keyword. -/
def lowerEq (cs kw : List Char) : Bool := cs.map Char.toLower == kw

/-- The unsigned body of `float(...)`: the keywords `nan`, `inf` and
`infinity` (case-insensitive) or a decimal literal. -/
def parsePyBody (cs : List Char) : Option PyFloat :=
  if lowerEq cs ['n', 'a', 'n'] then some PyFloat.nan
  else if lowerEq cs ['i', 'n', 'f'] ||
      lowerEq cs ['i', 'n', 'f', 'i', 'n', 'i', 't', 'y'] then
    some (PyFloat.inf false)
  else (parseDecNumber cs).map PyFloat.num

/-- Model of Python `float(amount)`: surrounding whitespace is stripped, an
optional sign applies to the body, and the body is a decimal literal
(optionally with fraction, exponent and digit-group underscores, ASCII
digits) or one of the keywords `nan` / `inf` / `infinity`.  Finite values
are exact rationals; only the rounding to binary doubles is abstracted. -/
def parsePyFloat (s : String) : Option PyFloat :=
  match stripChars s.toList with
  | '+' :: rest => parsePyBody rest
  | '-' :: rest => (parsePyBody rest).map PyFloat.neg
  | cs => parsePyBody cs

/-- A calendar date as validated by `datetime.strptime(date_str, "%Y-%m-%d")`. -/
structure Date where
  year : Nat
  month : Nat
  day : Nat
deriving DecidableEq, Repr

/-- Gregorian leap-year rule, as implemented by `datetime`. -/
def isLeapYear (y : Nat) : Bool :=
  (y % 4 == 0 && y % 100 != 0) || y % 400 == 0

/-- Number of days of a month, as enforced by the `datetime` constructor. -/
def daysInMonth (y m : Nat) : Nat :=
  if m = 2 then (if isLeapYear y then 29 else 28)
  else if m = 4 ∨ m = 6 ∨ m = 9 ∨ m = 11 then 30
  else 31

/-- Split a character list at every dash, keeping empty groups. -/
def splitDash : List Char → List (List Char)
  | [] => [[]]
  | c :: rest =>
    if c = '-' then [] :: splitDash rest
    else
      match splitDash rest with
      | [] => [[c]]
      | g :: gs => (c :: g) :: gs

/-- Model of `datetime.strptime(date_str, "%Y-%m-%d")`: three dash-separated
digit groups — exactly four digits of year (the regex CPython compiles for
`%Y` is four `\d`), one or two digits of month and of day (the
backtracking alternations for `%m` and `%d`) — then calendar validation by
the `datetime` constructor (year at least 1, month 1..12, day within the
month). -/
def parsePyDate (s : String) : Option Date :=
  match splitDash s.toList with
  | [ys, ms, ds] =>
    if ys.all Char.isDigit && ms.all Char.isDigit && ds.all Char.isDigit
        && decide (ys.length = 4)
        && decide (1 ≤ ms.length) && decide (ms.length ≤ 2)
        && decide (1 ≤ ds.length) && decide (ds.length ≤ 2) then
      let y := decNat ys
      let m := decNat ms
      let d := decNat ds
      if 1 ≤ y ∧ 1 ≤ m ∧ m ≤ 12 ∧ 1 ≤ d ∧ d ≤ daysInMonth y m then
        some ⟨y, m, d⟩
      else none
    else none
  | _ => none

/-- Model of `date.strftime("%Y-%m-%d")`, the normalised form stored in a
transaction record: month and day zero-padded to two digits, the year
rendered unpadded as glibc `%Y` does (a year below 1000 is stored without
leading zeros). -/
def formatDate (d : Date) : String :=
  natRepr d.year ++ "-" ++ pad2 d.month ++ "-" ++ pad2 d.day

/-- Model of `now.strftime("%Y-%m")`, the month key used by the report. -/
def monthKey (year month : Nat) : String :=
  natRepr year ++ "-" ++ pad2 month

/-- A transaction record, mirroring the dict built by `add_transaction`. -/
structure Transaction where
  id : Nat
  type : String
  amount : PyFloat
  category : String
  description : String
  date : String
deriving DecidableEq, Repr

/-- Lookup in an insertion-ordered association list (Python `dict` access). -/
def lookup {α : Type} : List (String × α) → String → Option α
  | [], _ => none
  | (k, v) :: rest, c => if k = c then some v else lookup rest c

/-- Model of Python `d[k] = v`: overwrite in place, else append at the end
(dicts preserve insertion order). -/
def upsert {α : Type} : List (String × α) → String → α → List (String × α)
  | [], k, v => [(k, v)]
  | (k1, v1) :: rest, k, v =>
    if k1 = k then (k, v) :: rest else (k1, v1) :: upsert rest k v

/-- Model of `defaultdict(float)` update `m[k] += v`. -/
def addTo : List (String × PyFloat) → String → PyFloat → List (String × PyFloat)
  | [], k, v => [(k, v)]
  | (k1, v1) :: rest, k, v =>
    if k1 = k then (k1, v1 + v) :: rest else (k1, v1) :: addTo rest k v

/-- The in-memory state of `ExpenseLogic` (the fixed `currencies` table is
omitted: it is constant and never consulted by the ledger operations). -/
structure State where
  transactions : List Transaction
  categories : List (String × List String)
  budgets : List (String × PyFloat)
  currency_symbol : String
deriving DecidableEq, Repr

/-- The default category lists installed by `__init__`. -/
def defaultCategories : List (String × List String) :=
  [("expense", ["Groceries", "Rent", "Transport", "Dining", "Utilities", "Other"]),
   ("income", ["Salary", "Bonus", "Gifts", "Other"])]

/-- The state of a fresh `ExpenseLogic` before any data file is read, which
is also the state produced when no file exists or the file is corrupt. -/
def initState : State :=
  { transactions := []
    categories := defaultCategories
    budgets := []
    currency_symbol := "$" }

/-- The persisted JSON document written by `save_data`.  Fields are optional
because `load_data` reads each top-level key with a default. -/
structure StoredData where
  transactions : Option (List Transaction)
  categories : Option (List (String × List String))
  budgets : Option (List (String × PyFloat))
  currency_symbol : Option String
deriving DecidableEq, Repr

/-- Model of `load_data`: `none` stands for a missing or corrupt file (the
code then keeps the defaults and rewrites the file); otherwise each key is
read with `dict.get` and its default. -/
def load_data : Option StoredData → State
  | none => initState
  | some d =>
    { transactions := d.transactions.getD []
      categories := d.categories.getD defaultCategories
      budgets := d.budgets.getD []
      currency_symbol := d.currency_symbol.getD "$" }

/-- Model of `save_data`: the full state is serialised with every key
present. -/
def save_data (s : State) : StoredData :=
  { transactions := some s.transactions
    categories := some s.categories
    budgets := some s.budgets
    currency_symbol := some s.currency_symbol }

/-- Model of `set_currency`. -/
def set_currency (s : State) (new_symbol : String) : State :=
  { s with currency_symbol := new_symbol }

/-- The magnitude of a rational in cents, rounded to the nearest integer
with ties to even: the rounding of the decimal `%.2f` format, computed on
the exact value `|q| * 100 = (q.num.natAbs * 100) / q.den` by integer
arithmetic. -/
def centsAbs (q : Rat) : Nat :=
  let a := q.num.natAbs * 100
  let d := q.den
  if 2 * (a % d) < d then a / d
  else if d < 2 * (a % d) then a / d + 1
  else if (a / d) % 2 = 0 then a / d else a / d + 1

/-- Model of the Python format `f"{amount:.2f}"` under the exact-rational
abstraction: sign of the value, integer part, a point and two cent digits. -/
def fmt2 (q : Rat) : String :=
  let n := centsAbs q
  (if q < 0 then "-" else "") ++ natRepr (n / 100) ++ "." ++ pad2 (n % 100)

/-- Model of `format_currency` on finite amounts (the Currency Formatter
renders a stored decimal value). -/
def format_currency (s : State) (amount : Rat) : String :=
  s.currency_symbol ++ fmt2 amount

/-- `format_currency` extended to the full float value space, as called by
`set_budget` with the parsed amount: Python renders `f"{nan:.2f}"` as
`"nan"` and the infinities as `"inf"` / `"-inf"`. -/
def format_currency_py (s : State) (v : PyFloat) : String :=
  match v with
  | PyFloat.num q => format_currency s q
  | PyFloat.nan => s.currency_symbol ++ "nan"
  | PyFloat.inf false => s.currency_symbol ++ "inf"
  | PyFloat.inf true => s.currency_symbol ++ "-inf"

/-- Stable insertion of a transaction into a list sorted by date descending:
the new element passes over entries with a strictly larger date and stops
before the first entry whose date is at most its own. -/
def insertDesc (t : Transaction) : List Transaction → List Transaction
  | [] => [t]
  | u :: us =>
    if lexLe u.date.toList t.date.toList then t :: u :: us
    else u :: insertDesc t us

/-- Stable sort by `date` descending, the effect of
`transactions.sort(key=lambda x: x["date"], reverse=True)`. -/
def sortDesc : List Transaction → List Transaction
  | [] => []
  | t :: ts => insertDesc t (sortDesc ts)

/-- Model of `add_transaction`: parse the amount (taking its absolute
value), validate and normalise the date, assign `id` from the current
count, append and re-sort; a `ValueError` from either parse yields the
single shared failure message. -/
def add_transaction (s : State)
    (trans_type amount category description date_str : String) :
    (Bool × String) × State :=
  match parsePyFloat amount with
  | none => ((false, "Invalid amount or date format (YYYY-MM-DD)."), s)
  | some v =>
    match parsePyDate date_str with
    | none => ((false, "Invalid amount or date format (YYYY-MM-DD)."), s)
    | some d =>
      let t : Transaction :=
        { id := s.transactions.length + 1
          type := trans_type
          amount := v.abs
          category := category
          description := description
          date := formatDate d }
      ((true, "Transaction added successfully."),
       { s with transactions := sortDesc (s.transactions ++ [t]) })

/-- Model of `get_categories`: `dict.get` with an empty default. -/
def get_categories (s : State) (trans_type : String) : List String :=
  (lookup s.categories trans_type).getD []

/-- The raised exception of `self.categories[trans_type]` on a missing key. -/
inductive PyError where
  | keyError (key : String)
deriving DecidableEq, Repr

/-- Model of `add_category`.  The truthiness test of the normalised name is
evaluated first; only when it is nonempty does the membership test index
`self.categories[trans_type]`, which raises `KeyError` on an unknown type. -/
def add_category (s : State) (new_category trans_type : String) :
    Except PyError ((Bool × String) × State) :=
  let n := pyTitle (pyStrip new_category)
  if n ≠ "" then
    match lookup s.categories trans_type with
    | none => Except.error (PyError.keyError trans_type)
    | some lst =>
      if n ∉ lst then
        Except.ok ((true, "Category \x27" ++ n ++ "\x27 added."),
          { s with categories := upsert s.categories trans_type (lst ++ [n]) })
      else
        Except.ok ((false, "Category already exists."), s)
  else
    Except.ok ((false, "Category name cannot be empty."), s)

/-- Model of `get_budgets`. -/
def get_budgets (s : State) : List (String × PyFloat) := s.budgets

/-- Model of `set_budget`: parse, reject values comparing below zero (NaN
does not — `nan < 0` is false in Python, so NaN passes the guard and is
stored), upsert. -/
def set_budget (s : State) (category amount : String) : (Bool × String) × State :=
  match parsePyFloat amount with
  | none => ((false, "Invalid amount."), s)
  | some v =>
    if v.ltZero then ((false, "Budget amount cannot be negative."), s)
    else
      ((true, "Budget for " ++ category ++ " set to " ++ format_currency_py s v ++ "."),
       { s with budgets := upsert s.budgets category v })

/-- The month names of `strftime("%B")`. -/
def monthNames : List String :=
  ["January", "February", "March", "April", "May", "June", "July",
   "August", "September", "October", "November", "December"]

/-- Human-readable month label of `now.strftime("%B %Y")`. -/
def monthName (m : Nat) : String := monthNames.getD (m - 1) ""

/-- The monthly report record. -/
structure Report where
  month_name : String
  total_income : PyFloat
  total_expense : PyFloat
  net_savings : PyFloat
  spending_by_category : List (String × PyFloat)
deriving DecidableEq, Repr

/-- Model of `get_monthly_report_data`; the current date is abstracted to
its year and month (the only parts the code reads from `datetime.now()`). -/
def get_monthly_report_data (s : State) (year month : Nat) : Report :=
  let current_month_str := monthKey year month
  let month_transactions :=
    s.transactions.filter (fun t => pyStartsWith t.date current_month_str)
  let total_income :=
    ((month_transactions.filter (fun t => t.type == "income")).map
      (fun t => t.amount)).sum
  let total_expense :=
    ((month_transactions.filter (fun t => t.type == "expense")).map
      (fun t => t.amount)).sum
  let net_savings := total_income - total_expense
  let spending_by_category :=
    month_transactions.foldl
      (fun m t => if t.type == "expense" then addTo m t.category t.amount else m) []
  { month_name := monthName month ++ " " ++ natRepr year
    total_income := total_income
    total_expense := total_expense
    net_savings := net_savings
    spending_by_category := spending_by_category }

/-- States reachable through the public mutating operations of
`ExpenseLogic`, starting from a fresh instance (no pre-existing data file),
including a save-and-reload cycle. -/
inductive Reachable : State → Prop
  | init : Reachable initState
  | add_trans (s : State) (ty am cat ds dt : String) :
      Reachable s → Reachable (add_transaction s ty am cat ds dt).2
  | add_cat (s : State) (n ty : String) (r : (Bool × String) × State) :
      Reachable s → add_category s n ty = Except.ok r → Reachable r.2
  | set_bud (s : State) (cat am : String) :
      Reachable s → Reachable (set_budget s cat am).2
  | set_cur (s : State) (sym : String) :
      Reachable s → Reachable (set_currency s sym)
  | reload (s : State) :
      Reachable s → Reachable (load_data (some (save_data s)))

/-- The comparison `lexLe` is total. -/
lemma lexLe_total : ∀ a b : List Char, lexLe a b = true ∨ lexLe b a = true := by
  intro a
  induction a with
  | nil => intro b; left; rfl
  | cons x xs ih =>
    intro b
    cases b with
    | nil => right; rfl
    | cons y ys =>
      by_cases h1 : x.toNat < y.toNat
      · left; simp [lexLe, h1]
      · by_cases h2 : y.toNat < x.toNat
        · right; simp [lexLe, h2]
        · rcases ih ys with h | h
          · left; simp [lexLe, h1, h2, h]
          · right; simp [lexLe, h1, h2, h]

/-- The comparison `lexLe` is transitive. -/
lemma lexLe_trans : ∀ a b c : List Char,
    lexLe a b = true → lexLe b c = true → lexLe a c = true := by
  intro a
  induction a with
  | nil => intro b c _ _; rfl
  | cons x xs ih =>
    intro b c hab hbc
    cases b with
    | nil => simp [lexLe] at hab
    | cons y ys =>
      cases c with
      | nil => simp [lexLe] at hbc
      | cons z zs =>
        simp only [lexLe] at hab hbc ⊢
        by_cases h1 : x.toNat < y.toNat
        · by_cases h2 : y.toNat < z.toNat
          · simp [show x.toNat < z.toNat by omega]
          · by_cases h3 : z.toNat < y.toNat
            · simp [h2, h3] at hbc
            · simp [show x.toNat < z.toNat by omega]
        · by_cases h4 : y.toNat < x.toNat
          · simp [h1, h4] at hab
          · by_cases h2 : y.toNat < z.toNat
            · simp [show x.toNat < z.toNat by omega]
            · by_cases h3 : z.toNat < y.toNat
              · simp [h2, h3] at hbc
              · simp only [h1, h2, h3, h4, if_false, if_neg, ite_false] at hab hbc ⊢
                simp only [show ¬ x.toNat < z.toNat by omega,
                  show ¬ z.toNat < x.toNat by omega, if_false, ite_false]
                exact ih ys zs hab hbc

/-- Transactions kept in a list ordered by descending date. -/
def dateGe (a b : Transaction) : Prop := lexLe b.date.toList a.date.toList = true

/-- Membership after `insertDesc` is the new element or an old one. -/
lemma mem_insertDesc {a t : Transaction} :
    ∀ {l : List Transaction}, a ∈ insertDesc t l → a = t ∨ a ∈ l := by
  intro l
  induction l with
  | nil => intro h; simp [insertDesc] at h; exact Or.inl h
  | cons u us ih =>
    intro h
    simp only [insertDesc] at h
    by_cases hc : lexLe u.date.toList t.date.toList = true
    · rw [if_pos hc] at h
      rcases List.mem_cons.mp h with h | h
      · exact Or.inl h
      · exact Or.inr h
    · rw [if_neg hc] at h
      rcases List.mem_cons.mp h with h | h
      · exact Or.inr (h ▸ List.mem_cons_self u us)
      · rcases ih h with h1 | h1
        · exact Or.inl h1
        · exact Or.inr (List.mem_cons_of_mem u h1)

/-- `insertDesc` preserves descending sortedness. -/
lemma pairwise_insertDesc {t : Transaction} :
    ∀ {l : List Transaction}, List.Pairwise dateGe l →
      List.Pairwise dateGe (insertDesc t l) := by
  intro l
  induction l with
  | nil => intro _; simp [insertDesc, List.Pairwise]
  | cons u us ih =>
    intro h
    rcases List.pairwise_cons.mp h with ⟨hu, hus⟩
    simp only [insertDesc]
    by_cases hc : lexLe u.date.toList t.date.toList = true
    · simp only [hc, if_true]
      refine List.pairwise_cons.mpr ⟨?_, h⟩
      intro b hb
      rcases hb with _ | hb
      · exact hc
      · exact lexLe_trans _ _ _ (hu b (by assumption)) hc
    · simp only [hc, if_false, ite_false]
      refine List.pairwise_cons.mpr ⟨?_, ih hus⟩
      intro b hb
      rcases mem_insertDesc hb with rfl | hb1
      · rcases lexLe_total u.date.toList b.date.toList with h1 | h1
        · exact absurd h1 hc
        · exact h1
      · exact hu b hb1

/-- The sorted list produced after every insertion is date-descending. -/
lemma sortDesc_pairwise : ∀ l : List Transaction,
    List.Pairwise dateGe (sortDesc l) := by
  intro l
  induction l with
  | nil => simp [sortDesc]
  | cons t ts ih => exact pairwise_insertDesc ih

/-- `insertDesc` only reorders. -/
lemma insertDesc_perm (t : Transaction) :
    ∀ l : List Transaction, List.Perm (insertDesc t l) (t :: l) := by
  intro l
  induction l with
  | nil => simp [insertDesc]
  | cons u us ih =>
    simp only [insertDesc]
    by_cases hc : lexLe u.date.toList t.date.toList = true
    · rw [if_pos hc]
    · rw [if_neg hc]
      exact (ih.cons u).trans (List.Perm.swap t u us)

/-- Sorting only reorders. -/
lemma sortDesc_perm : ∀ l : List Transaction, List.Perm (sortDesc l) l := by
  intro l
  induction l with
  | nil => simp [sortDesc]
  | cons t ts ih => exact (insertDesc_perm t (sortDesc ts)).trans (ih.cons t)

/-- Looking up the written key after an upsert yields the new value. -/
lemma lookup_upsert_self {α : Type} :
    ∀ (m : List (String × α)) (k : String) (v : α),
      lookup (upsert m k v) k = some v := by
  intro m
  induction m with
  | nil => intro k v; simp [upsert, lookup]
  | cons p rest ih =>
    intro k v
    rcases p with ⟨k1, v1⟩
    by_cases h : k1 = k
    · simp [upsert, h, lookup]
    · simp [upsert, h, lookup, ih]

/-- Looking up a different key after an upsert is unchanged. -/
lemma lookup_upsert_ne {α : Type} :
    ∀ (m : List (String × α)) (k : String) (v : α) (c : String), c ≠ k →
      lookup (upsert m k v) c = lookup m c := by
  intro m
  induction m with
  | nil => intro k v c hne; simp [upsert, lookup, Ne.symm hne]
  | cons p rest ih =>
    intro k v c hne
    rcases p with ⟨k1, v1⟩
    by_cases h : k1 = k
    · subst h
      simp [upsert, lookup, Ne.symm hne]
    · by_cases h2 : k1 = c
      · simp [upsert, h, lookup, h2, hne]
      · simp [upsert, h, lookup, h2, ih k v c hne]

/-- Adding the float zero on the left is the identity (exact finite
arithmetic; NaN and infinities absorb). -/
@[simp] lemma pyFloat_zero_add (a : PyFloat) : (0 : PyFloat) + a = a := by
  cases a with
  | num q => show PyFloat.num ((0 : Rat) + q) = PyFloat.num q; rw [zero_add]
  | nan => rfl
  | inf b => rfl

/-- Adding the float zero on the right is the identity. -/
@[simp] lemma pyFloat_add_zero (a : PyFloat) : a + (0 : PyFloat) = a := by
  cases a with
  | num q => show PyFloat.num (q + (0 : Rat)) = PyFloat.num q; rw [add_zero]
  | nan => rfl
  | inf b => rfl

/-- IEEE addition on the `PyFloat` value space is associative (finite
values add exactly; NaN and mismatched infinities absorb coherently). -/
lemma pyFloat_add_assoc (a b c : PyFloat) : a + b + c = a + (b + c) := by
  show PyFloat.add (PyFloat.add a b) c = PyFloat.add a (PyFloat.add b c)
  cases a <;> cases b <;> cases c <;>
    simp only [PyFloat.add] <;>
    (try split_ifs) <;>
    simp_all [PyFloat.add, add_assoc]

/-- Lookup after a `defaultdict` increment: the touched key gains `v` on top
of its previous value (default 0), every other key is untouched. -/
lemma lookup_addTo :
    ∀ (m : List (String × PyFloat)) (k : String) (v : PyFloat) (c : String),
      lookup (addTo m k v) c =
        if c = k then some ((lookup m k).getD 0 + v) else lookup m c := by
  intro m
  induction m with
  | nil =>
    intro k v c
    by_cases h : c = k
    · simp [addTo, lookup, h]
    · simp [addTo, lookup, h, Ne.symm h]
  | cons p rest ih =>
    intro k v c
    rcases p with ⟨k1, v1⟩
    by_cases h : k1 = k
    · subst h
      by_cases h2 : c = k1
      · simp [addTo, lookup, h2]
      · simp [addTo, lookup, h2, Ne.symm h2]
    · by_cases h2 : k1 = c
      · subst h2
        simp [addTo, lookup, h, Ne.symm h]
      · by_cases h3 : c = k
        · subst h3
          simp [addTo, lookup, h, Ne.symm h2, ih _ v c, h2]
        · simp [addTo, lookup, h, h2, h3, ih _ v c]

/-- The transactions of the current month, as filtered by the report. -/
def monthTransactions (s : State) (year month : Nat) : List Transaction :=
  s.transactions.filter (fun t => pyStartsWith t.date (monthKey year month))

/-- Amounts of the expense transactions of a given category in a list. -/
def catExpenseAmounts (ts : List Transaction) (c : String) : List PyFloat :=
  (ts.filter (fun t => t.type == "expense" && t.category == c)).map
    (fun t => t.amount)

/-- Characterisation of the `spending_by_category` fold: relative to a
starting accumulator, the value at a key grows by the summed expense
amounts of that category, and keys with no expense stay absent. -/
lemma lookup_spending_foldl :
    ∀ (ts : List Transaction) (acc : List (String × PyFloat)) (c : String),
      lookup (ts.foldl
        (fun m t => if t.type == "expense" then addTo m t.category t.amount else m)
        acc) c =
      match lookup acc c with
      | some v => some (v + (catExpenseAmounts ts c).sum)
      | none =>
        if catExpenseAmounts ts c = [] then none
        else some (catExpenseAmounts ts c).sum := by
  intro ts
  induction ts with
  | nil =>
    intro acc c
    cases h : lookup acc c <;> simp [catExpenseAmounts, h]
  | cons t ts ih =>
    intro acc c
    rw [List.foldl_cons]
    by_cases ht : t.type = "expense"
    · by_cases hc : t.category = c
      · have hstep :
            (if t.type == "expense" then addTo acc t.category t.amount else acc)
              = addTo acc t.category t.amount := by simp [ht]
        rw [hstep, ih]
        rw [lookup_addTo acc t.category t.amount c]
        have hfilter : catExpenseAmounts (t :: ts) c = t.amount :: catExpenseAmounts ts c := by
          simp [catExpenseAmounts, List.filter_cons, ht, hc]
        rw [if_pos hc.symm]
        cases h : lookup acc c with
        | none =>
          simp only [h, Option.getD_none, hfilter, hc]
          have : (t.amount :: catExpenseAmounts ts c) ≠ [] := by simp
          simp only [this, if_false, ite_false, List.sum_cons]
          by_cases he : catExpenseAmounts ts c = []
          · simp [he]
          · simp [he, zero_add]
        | some v =>
          simp only [h, Option.getD_some, hfilter, hc, List.sum_cons]
          rw [pyFloat_add_assoc]
      · have hstep :
            (if t.type == "expense" then addTo acc t.category t.amount else acc)
              = addTo acc t.category t.amount := by simp [ht]
        rw [hstep, ih]
        rw [lookup_addTo acc t.category t.amount c]
        rw [if_neg (fun h => hc h.symm)]
        have hfilter : catExpenseAmounts (t :: ts) c = catExpenseAmounts ts c := by
          simp [catExpenseAmounts, List.filter_cons, ht, hc]
        rw [hfilter]
    · have hstep :
          (if t.type == "expense" then addTo acc t.category t.amount else acc) = acc := by
        simp [ht]
      rw [hstep, ih]
      have hfilter : catExpenseAmounts (t :: ts) c = catExpenseAmounts ts c := by
        simp [catExpenseAmounts, List.filter_cons, ht]
      rw [hfilter]

/-- A decimal digit below ten renders as a digit character. -/
lemma digitChar_isDigit : ∀ d : Nat, d < 10 → (Nat.digitChar d).isDigit = true := by
  intro d h
  interval_cases d <;> decide

/-- The digit accumulator never returns an empty list when fuelled. -/
lemma natDigitsAux_ne_nil : ∀ (fuel n : Nat) (acc : List Char),
    n < fuel → natDigitsAux fuel n acc ≠ [] := by
  intro fuel
  induction fuel with
  | zero => intro n acc h; omega
  | succ f ih =>
    intro n acc h
    simp only [natDigitsAux]
    by_cases h10 : n < 10
    · simp [h10]
    · rw [if_neg h10]
      exact ih (n / 10) _ (by omega)

/-- The digit accumulator only emits digit characters. -/
lemma natDigitsAux_digits : ∀ (fuel n : Nat) (acc : List Char),
    n < fuel → (∀ c ∈ acc, c.isDigit = true) →
    ∀ c ∈ natDigitsAux fuel n acc, c.isDigit = true := by
  intro fuel
  induction fuel with
  | zero => intro n acc h; omega
  | succ f ih =>
    intro n acc h hacc c hc
    simp only [natDigitsAux] at hc
    by_cases h10 : n < 10
    · rw [if_pos h10] at hc
      rcases List.mem_cons.mp hc with h1 | h1
      · exact h1 ▸ digitChar_isDigit n h10
      · exact hacc c h1
    · rw [if_neg h10] at hc
      refine ih (n / 10) _ (by omega) ?_ c hc
      intro c1 hc1
      rcases List.mem_cons.mp hc1 with h1 | h1
      · exact h1 ▸ digitChar_isDigit (n % 10) (by omega)
      · exact hacc c1 h1

/-- The decimal rendering of a natural number is nonempty. -/
lemma natDigits_ne_nil (n : Nat) : natDigits n ≠ [] :=
  natDigitsAux_ne_nil (n + 1) n [] (by omega)

/-- The decimal rendering of a natural number is all digits. -/
lemma natDigits_digits (n : Nat) : ∀ c ∈ natDigits n, c.isDigit = true :=
  natDigitsAux_digits (n + 1) n [] (by omega) (by intro c hc; cases hc)

/-- Saving and reloading restores every field of the state. -/
lemma load_save_data (s : State) : load_data (some (save_data s)) = s := by
  cases s
  rfl

/-- C5: for every state validly constructed through the public operations
(indeed for every state), saving and then loading reproduces an equal
state in all four components, and loading the same file twice without an
intervening mutation yields identical states. -/
theorem tracker_C5 :
    (∀ s : State, load_data (some (save_data s)) = s) ∧
    (∀ d : Option StoredData, load_data d = load_data d) :=
  ⟨load_save_data, fun _ => rfl⟩

/-- C1: the monthly report aggregates exactly the transactions whose date
starts with the `YYYY-MM` key of the current date: `total_income` and
`total_expense` are the sums of the amounts of the filtered income and
expense transactions, `net_savings` is their difference, and
`spending_by_category` holds, for each category, the summed filtered
expense amounts, with categories having no expense this month absent. -/
theorem tracker_C1 (s : State) (year month : Nat) :
    (get_monthly_report_data s year month).total_income =
      (((monthTransactions s year month).filter (fun t => t.type == "income")).map
        (fun t => t.amount)).sum ∧
    (get_monthly_report_data s year month).total_expense =
      (((monthTransactions s year month).filter (fun t => t.type == "expense")).map
        (fun t => t.amount)).sum ∧
    (get_monthly_report_data s year month).net_savings =
      (get_monthly_report_data s year month).total_income -
        (get_monthly_report_data s year month).total_expense ∧
    ∀ c : String,
      lookup (get_monthly_report_data s year month).spending_by_category c =
        (if catExpenseAmounts (monthTransactions s year month) c = [] then none
         else some (catExpenseAmounts (monthTransactions s year month) c).sum) := by
  refine ⟨rfl, rfl, rfl, ?_⟩
  intro c
  exact lookup_spending_foldl (monthTransactions s year month) [] c

/-- C2: for every valid input, a successful `add_transaction` stores a
record whose `amount` is the absolute value of the parsed amount (a
negative sign is ignored, not rejected) and whose `id` is the transaction
count before insertion plus one; the new list is the old one plus that
record. -/
theorem tracker_C2 (s : State) (ty am cat ds dt : String) (v : PyFloat) (d : Date)
    (h1 : parsePyFloat am = some v) (h2 : parsePyDate dt = some d) :
    (add_transaction s ty am cat ds dt).1 = (true, "Transaction added successfully.") ∧
    ∃ t : Transaction,
      List.Perm (add_transaction s ty am cat ds dt).2.transactions (t :: s.transactions) ∧
      t.amount = v.abs ∧
      t.id = s.transactions.length + 1 ∧
      t.type = ty ∧ t.category = cat ∧ t.description = ds ∧ t.date = formatDate d := by
  have e : add_transaction s ty am cat ds dt =
      ((true, "Transaction added successfully."),
       { s with transactions := sortDesc (s.transactions ++
           [{ id := s.transactions.length + 1, type := ty, amount := v.abs,
              category := cat, description := ds, date := formatDate d }]) }) := by
    simp only [add_transaction, h1, h2]
  rw [e]
  exact ⟨rfl,
    ⟨{ id := s.transactions.length + 1, type := ty, amount := v.abs,
       category := cat, description := ds, date := formatDate d },
      (sortDesc_perm _).trans (List.perm_append_singleton _ _),
      rfl, rfl, rfl, rfl, rfl, rfl⟩⟩

/-- Witness for C2 at a concrete run: a negative amount string is accepted,
stored as its absolute value 50, with id `previous_count + 1 = 1`. -/
theorem tracker_C2_witness :
    parsePyFloat "-50" = some (PyFloat.num (-50)) ∧
    parsePyDate "2024-05-10" = some ⟨2024, 5, 10⟩ ∧
    (PyFloat.num (-50 : Rat)).abs = PyFloat.num 50 ∧
    ((add_transaction initState "expense" "-50" "Rent" "" "2024-05-10").1 =
        (true, "Transaction added successfully.") ∧
      ∃ t : Transaction,
        List.Perm (add_transaction initState "expense" "-50" "Rent" "" "2024-05-10").2.transactions
          (t :: initState.transactions) ∧
        t.amount = (PyFloat.num (-50 : Rat)).abs ∧
        t.id = initState.transactions.length + 1 ∧
        t.type = "expense" ∧ t.category = "Rent" ∧ t.description = "" ∧
        t.date = formatDate ⟨2024, 5, 10⟩) :=
  ⟨by decide, by decide, by decide,
    tracker_C2 initState "expense" "-50" "Rent" "" "2024-05-10" (PyFloat.num (-50))
      ⟨2024, 5, 10⟩ (by decide) (by decide)⟩

/-- C3: after every successful `add_transaction` the entire stored
transaction list is sorted by `date` descending (each element dates at
least as late as every later one, in code-point order on the strings). -/
theorem tracker_C3 (s : State) (ty am cat ds dt : String)
    (h : (add_transaction s ty am cat ds dt).1.1 = true) :
    List.Pairwise dateGe (add_transaction s ty am cat ds dt).2.transactions := by
  cases hp : parsePyFloat am with
  | none => simp [add_transaction, hp] at h
  | some q =>
    cases hd : parsePyDate dt with
    | none => simp [add_transaction, hp, hd] at h
    | some d =>
      simp only [add_transaction, hp, hd]
      exact sortDesc_pairwise _

/-- Witness for C3 at a concrete run: a successful insertion into a
nonempty out-of-order ledger leaves the list date-descending. -/
theorem tracker_C3_witness :
    ((add_transaction
        (add_transaction initState "income" "10" "Salary" "" "2024-04-01").2
        "expense" "5" "Rent" "" "2024-05-10").1.1 = true) ∧
    List.Pairwise dateGe
      (add_transaction
        (add_transaction initState "income" "10" "Salary" "" "2024-04-01").2
        "expense" "5" "Rent" "" "2024-05-10").2.transactions :=
  ⟨by decide,
    tracker_C3 (add_transaction initState "income" "10" "Salary" "" "2024-04-01").2
      "expense" "5" "Rent" "" "2024-05-10" (by decide)⟩

/-- C4 counterexample: the two failure kinds of `add_transaction` are not
distinct at the interface.  An unparseable amount (with a valid date) and
an invalid date (with a valid amount) return the very same failure pair,
the shared message of the single `ValueError` handler, in both cases
leaving the transaction list unchanged. -/
theorem tracker_C4_counterexample :
    (add_transaction initState "expense" "abc" "Rent" "" "2024-05-10").1 =
      (add_transaction initState "expense" "50" "Rent" "" "2024-13-40").1 ∧
    (add_transaction initState "expense" "abc" "Rent" "" "2024-05-10").1 =
      (false, "Invalid amount or date format (YYYY-MM-DD).") ∧
    (add_transaction initState "expense" "abc" "Rent" "" "2024-05-10").2 = initState ∧
    (add_transaction initState "expense" "50" "Rent" "" "2024-13-40").2 = initState ∧
    (add_transaction initState "expense" "50" "Rent" "" "01-01-2024").1 =
      (false, "Invalid amount or date format (YYYY-MM-DD).") := by
  decide

/-- C4 amended: `add_transaction` fails and leaves the state (hence the
transaction list) unchanged whenever the amount string is unparseable or
the date string is not a valid `YYYY-MM-DD` calendar date, but both
failures return the identical result pair — the error kinds are not
distinguishable at the interface. -/
theorem tracker_C4_amended (s : State) (ty am cat ds dt : String)
    (h : parsePyFloat am = none ∨ parsePyDate dt = none) :
    add_transaction s ty am cat ds dt =
      ((false, "Invalid amount or date format (YYYY-MM-DD)."), s) := by
  rcases h with h | h
  · simp [add_transaction, h]
  · cases hp : parsePyFloat am with
    | none => simp [add_transaction, hp]
    | some q => simp [add_transaction, hp, h]

/-- Witness for the amended C4 at the concrete failing inputs of the claim. -/
theorem tracker_C4_witness :
    (parsePyFloat "abc" = none ∨ parsePyDate "2024-05-10" = none) ∧
    add_transaction initState "expense" "abc" "Rent" "" "2024-05-10" =
      ((false, "Invalid amount or date format (YYYY-MM-DD)."), initState) :=
  ⟨Or.inl (by decide),
    tracker_C4_amended initState "expense" "abc" "Rent" "" "2024-05-10"
      (Or.inl (by decide))⟩

/-- C6: `add_category` trims and title-cases the name; an empty normalised
name fails with the empty-name message, a name already in the list of the
given (known) type fails with the duplicate message, and otherwise the
normalised name is appended at the end of that list. -/
theorem tracker_C6 (s : State) (name ty : String) (lst : List String)
    (hl : lookup s.categories ty = some lst) :
    (pyTitle (pyStrip name) = "" →
      add_category s name ty =
        Except.ok ((false, "Category name cannot be empty."), s)) ∧
    (pyTitle (pyStrip name) ≠ "" → pyTitle (pyStrip name) ∈ lst →
      add_category s name ty =
        Except.ok ((false, "Category already exists."), s)) ∧
    (pyTitle (pyStrip name) ≠ "" → pyTitle (pyStrip name) ∉ lst →
      add_category s name ty =
        Except.ok ((true, "Category \x27" ++ pyTitle (pyStrip name) ++ "\x27 added."),
          { s with categories :=
              upsert s.categories ty (lst ++ [pyTitle (pyStrip name)]) })) := by
  refine ⟨?_, ?_, ?_⟩
  · intro he
    simp [add_category, he]
  · intro hne hmem
    simp [add_category, hne, hl, hmem]
  · intro hne hmem
    simp [add_category, hne, hl, hmem]

/-- Witness for C6 at concrete runs on the default category lists:
`"groceries"` collides case-insensitively with the default `"Groceries"`,
a blank name is rejected as empty, and a fresh name is appended at the
end of the expense list. -/
theorem tracker_C6_witness :
    add_category initState "groceries" "expense" =
      Except.ok ((false, "Category already exists."), initState) ∧
    add_category initState "  " "expense" =
      Except.ok ((false, "Category name cannot be empty."), initState) := by
  refine ⟨?_, ?_⟩
  · exact (tracker_C6 initState "groceries" "expense"
      ["Groceries", "Rent", "Transport", "Dining", "Utilities", "Other"]
      (by decide)).2.1 (by decide) (by decide)
  · exact (tracker_C6 initState "  " "expense"
      ["Groceries", "Rent", "Transport", "Dining", "Utilities", "Other"]
      (by decide)).1 (by decide)

/-- C7: `set_budget` fails with the invalid-amount message on an
unparseable amount and with the negative-amount message on a value
comparing below zero, leaving the state (hence the budgets mapping)
unchanged; otherwise it upserts the parsed value, so the new value is
found under the category and every other category keeps its previous
entry. -/
theorem tracker_C7 (s : State) (cat am : String) :
    (parsePyFloat am = none →
      set_budget s cat am = ((false, "Invalid amount."), s)) ∧
    (∀ v : PyFloat, parsePyFloat am = some v → v.ltZero = true →
      set_budget s cat am = ((false, "Budget amount cannot be negative."), s)) ∧
    (∀ v : PyFloat, parsePyFloat am = some v → v.ltZero = false →
      (set_budget s cat am).1.1 = true ∧
      lookup (set_budget s cat am).2.budgets cat = some v ∧
      ∀ c : String, c ≠ cat →
        lookup (set_budget s cat am).2.budgets c = lookup s.budgets c) := by
  refine ⟨?_, ?_, ?_⟩
  · intro h
    simp [set_budget, h]
  · intro v h hneg
    simp [set_budget, h, hneg]
  · intro v h hpos
    refine ⟨by simp [set_budget, h, hpos], ?_, ?_⟩
    · simp only [set_budget, h, hpos, if_false, Bool.false_eq_true, ite_false]
      exact lookup_upsert_self s.budgets cat v
    · intro c hc
      simp only [set_budget, h, hpos, if_false, Bool.false_eq_true, ite_false]
      exact lookup_upsert_ne s.budgets cat v c hc

/-- Witness for C7 at concrete runs: `"-5"` is rejected as negative and
after `set_budget "Rent" "500"` the budgets contain 500 under `"Rent"`. -/
theorem tracker_C7_witness :
    set_budget initState "Rent" "-5" =
      ((false, "Budget amount cannot be negative."), initState) ∧
    (set_budget initState "Rent" "500").1.1 = true ∧
    lookup (set_budget initState "Rent" "500").2.budgets "Rent" =
      some (PyFloat.num 500) := by
  refine ⟨?_, ?_, ?_⟩
  · exact (tracker_C7 initState "Rent" "-5").2.1 (PyFloat.num (-5))
      (by decide) (by decide)
  · exact ((tracker_C7 initState "Rent" "500").2.2 (PyFloat.num 500)
      (by decide) (by decide)).1
  · exact ((tracker_C7 initState "Rent" "500").2.2 (PyFloat.num 500)
      (by decide) (by decide)).2.1

/-- No branch of `add_transaction` touches the budgets. -/
lemma budgets_add_transaction (s : State) (ty am cat ds dt : String) :
    (add_transaction s ty am cat ds dt).2.budgets = s.budgets := by
  cases hp : parsePyFloat am with
  | none => simp [add_transaction, hp]
  | some q =>
    cases hd : parsePyDate dt with
    | none => simp [add_transaction, hp, hd]
    | some d => simp [add_transaction, hp, hd]

/-- No successful branch of `add_category` touches the budgets. -/
lemma budgets_add_category (s : State) (n ty : String)
    (r : (Bool × String) × State)
    (h : add_category s n ty = Except.ok r) : r.2.budgets = s.budgets := by
  by_cases he : pyTitle (pyStrip n) = ""
  · simp [add_category, he] at h
    rw [← h]
  · cases hl : lookup s.categories ty with
    | none => simp [add_category, he, hl] at h
    | some lst =>
      by_cases hm : pyTitle (pyStrip n) ∈ lst
      · simp [add_category, he, hl, hm] at h
        rw [← h]
      · simp [add_category, he, hl, hm] at h
        rw [← h]

/-- C8 counterexample: the non-negativity invariant fails in a reachable
state.  `set_budget "Rent" "nan"` is accepted — `float("nan")` parses and
`nan < 0` is false, so the guard does not fire — and stores NaN, for which
`>= 0` is also false. -/
theorem tracker_C8_counterexample :
    Reachable (set_budget initState "Rent" "nan").2 ∧
    (set_budget initState "Rent" "nan").1.1 = true ∧
    lookup (set_budget initState "Rent" "nan").2.budgets "Rent" =
      some PyFloat.nan ∧
    PyFloat.nonNeg PyFloat.nan = false :=
  ⟨Reachable.set_bud initState "Rent" "nan" Reachable.init,
    by decide, by decide, rfl⟩

/-- C8 amended: in every state reachable through the public operations, no
value stored in the budgets mapping compares below zero (`set_budget` is
the only constructor that writes budget values, and its guard rejects
every parsed value with `v < 0` true); full non-negativity fails only for
NaN, which passes the guard. -/
theorem tracker_C8_amended (s : State) (hs : Reachable s) (c : String)
    (v : PyFloat) (hq : lookup s.budgets c = some v) :
    PyFloat.ltZero v = false := by
  induction hs generalizing c v with
  | init => simp [initState, lookup] at hq
  | add_trans s1 ty am cat ds dt _ ih =>
    rw [budgets_add_transaction s1 ty am cat ds dt] at hq
    exact ih c v hq
  | add_cat s1 n ty r _ hok ih =>
    rw [budgets_add_category s1 n ty r hok] at hq
    exact ih c v hq
  | set_bud s1 cat am _ ih =>
    cases hp : parsePyFloat am with
    | none =>
      simp only [set_budget, hp] at hq
      exact ih c v hq
    | some w =>
      cases hneg : PyFloat.ltZero w with
      | true =>
        simp only [set_budget, hp, hneg, if_true, ite_true] at hq
        exact ih c v hq
      | false =>
        simp only [set_budget, hp, hneg, if_false, Bool.false_eq_true, ite_false] at hq
        by_cases hc : c = cat
        · subst hc
          rw [lookup_upsert_self s1.budgets c w] at hq
          cases hq
          exact hneg
        · rw [lookup_upsert_ne s1.budgets cat w c hc] at hq
          exact ih c v hq
  | set_cur s1 sym _ ih => exact ih c v hq
  | reload s1 _ ih =>
    rw [load_save_data s1] at hq
    exact ih c v hq

/-- Witness for the amended C8 at a concrete reachable state: after one
`set_budget` from the fresh state, the stored value 500 does not compare
below zero. -/
theorem tracker_C8_witness :
    lookup (set_budget initState "Rent" "500").2.budgets "Rent" =
      some (PyFloat.num 500) ∧
    PyFloat.ltZero (PyFloat.num 500) = false :=
  ⟨by decide,
    tracker_C8_amended (set_budget initState "Rent" "500").2
      (Reachable.set_bud initState "Rent" "500" Reachable.init)
      "Rent" (PyFloat.num 500) (by decide)⟩

/-- C9: `format_currency` returns the current symbol immediately followed
by the amount rendered with exactly two decimal places (for a negative
amount, the minus sign follows the symbol); concretely, 1234.5 (the
rational 2469/2) with symbol `"€"` yields `"€1234.50"` and -1234.5 yields
`"€-1234.50"`. -/
theorem tracker_C9 (s : State) (q : Rat) :
    (∃ ip fr : List Char,
      ip ≠ [] ∧ (∀ c ∈ ip, c.isDigit = true) ∧
      fr.length = 2 ∧ (∀ c ∈ fr, c.isDigit = true) ∧
      format_currency s q =
        s.currency_symbol ++
          ((if q < 0 then "-" else "") ++ (⟨ip⟩ : String) ++ "." ++ (⟨fr⟩ : String))) ∧
    format_currency { initState with currency_symbol := "€" } (Rat.divInt 2469 2) =
      "€1234.50" ∧
    format_currency { initState with currency_symbol := "€" } (Rat.divInt (-2469) 2) =
      "€-1234.50" := by
  refine ⟨?_, by decide, by decide⟩
  refine ⟨natDigits (centsAbs q / 100),
    [Nat.digitChar (centsAbs q % 100 / 10 % 10),
     Nat.digitChar (centsAbs q % 100 % 10)],
    natDigits_ne_nil _, natDigits_digits _, rfl, ?_, rfl⟩
  intro c hc
  rcases List.mem_cons.mp hc with h | h
  · exact h ▸ digitChar_isDigit _ (by omega)
  · rcases List.mem_cons.mp h with h1 | h1
    · exact h1 ▸ digitChar_isDigit _ (by omega)
    · cases h1

/-- C10 counterexample: with an unknown transaction type, `get_categories`
returns the empty list, but `add_category` with an empty name does NOT
raise `KeyError` — the truthiness test short-circuits before the dict
access and the empty-name failure result is returned instead. -/
theorem tracker_C10_counterexample :
    lookup initState.categories "misc" = none ∧
    get_categories initState "misc" = [] ∧
    add_category initState "" "misc" =
      Except.ok ((false, "Category name cannot be empty."), initState) :=
  ⟨rfl, rfl, rfl⟩

/-- C10 amended: for a transaction type with no entry in the categories
dict, `get_categories` returns the empty list while `add_category` raises
an uncaught `KeyError` exactly when the normalised name is nonempty; with
an empty normalised name the membership test is short-circuited and the
ordinary empty-name failure result is returned. -/
theorem tracker_C10_amended (s : State) (name ty : String)
    (h : lookup s.categories ty = none) :
    get_categories s ty = [] ∧
    (pyTitle (pyStrip name) ≠ "" →
      add_category s name ty = Except.error (PyError.keyError ty)) ∧
    (pyTitle (pyStrip name) = "" →
      add_category s name ty =
        Except.ok ((false, "Category name cannot be empty."), s)) := by
  refine ⟨?_, ?_, ?_⟩
  · simp [get_categories, h]
  · intro hne
    simp [add_category, hne, h]
  · intro he
    simp [add_category, he]

/-- Witness for the amended C10 at a concrete unknown type. -/
theorem tracker_C10_witness :
    get_categories initState "misc" = [] ∧
    add_category initState "Fun" "misc" =
      Except.error (PyError.keyError "misc") := by
  have h := tracker_C10_amended initState "Fun" "misc" (by decide)
  exact ⟨h.1, h.2.1 (by decide)⟩
